import Mathlib

/-!
Verification development for the sales-coach call-analysis pipeline.

The Python backend is shallowly embedded: Python `str` values are modelled as
`List Char`, Python floats as exact rationals `ℚ`, Python dicts as association
lists, and the external effects of the report generator (database commits and
the generative-model call) as explicit state passing over an environment that
records the outcome of the external call.
-/

namespace SalesCoach

/-! ## Rounding

Python's built-in `round(x, n)` rounds half to even.  We model it exactly over
the rationals: `roundHalfEven q` is the integer nearest to `q`, ties going to
the even integer; `roundTo1` / `roundTo3` are `round(x, 1)` / `round(x, 3)`. -/

def roundHalfEven (q : ℚ) : ℤ :=
  let n : ℤ := ⌊q⌋
  let r : ℚ := q - n
  if r < 1/2 then n
  else if 1/2 < r then n + 1
  else if n % 2 = 0 then n else n + 1

def roundTo1 (q : ℚ) : ℚ := (roundHalfEven (q * 10) : ℚ) / 10

def roundTo3 (q : ℚ) : ℚ := (roundHalfEven (q * 1000) : ℚ) / 1000

theorem roundHalfEven_intCast (z : ℤ) : roundHalfEven (z : ℚ) = z := by
  unfold roundHalfEven
  simp

theorem roundTo1_zero : roundTo1 0 = 0 := by
  unfold roundTo1
  norm_num
  have h := roundHalfEven_intCast 0
  norm_num at h
  rw [h]

/-- `round(x, 1)` always produces an integer multiple of `1/10`. -/
theorem roundTo1_eq_div_ten (q : ℚ) : roundTo1 q = (roundHalfEven (q * 10) : ℚ) / 10 := rfl

/-- Rounding to one decimal fixes values that are already one-decimal values. -/
theorem roundTo1_div_ten (z : ℤ) : roundTo1 ((z : ℚ) / 10) = (z : ℚ) / 10 := by
  unfold roundTo1
  rw [div_mul_cancel₀]
  · rw [roundHalfEven_intCast]
  · norm_num

/-! ## Transcript data model

Spec §3: a transcript is an ordered sequence of utterances, each with a `role`
(`user` / `assistant`), free-text `text` and an optional numeric timestamp.
Python `str` is modelled as `List Char`. -/

structure Message where
  role : String
  text : List Char
  timestamp : Option ℚ := none
deriving DecidableEq, Repr

structure Transcript where
  messages : List Message
deriving DecidableEq, Repr

/-! ## Word splitting (Python `str.split()` with no arguments)

`wordsAux cur t` scans `t` accumulating the current (reversed) token in `cur`;
whitespace-delimited maximal non-empty tokens are produced, matching Python's
`text.split()`. -/

def wordsAux : List Char → List Char → List (List Char)
  | cur, [] => if cur.isEmpty then [] else [cur.reverse]
  | cur, c :: rest =>
    if c.isWhitespace then
      if cur.isEmpty then wordsAux [] rest else cur.reverse :: wordsAux [] rest
    else wordsAux (c :: cur) rest

def pyWords (t : List Char) : List (List Char) := wordsAux [] t

/-- `_count_words` from `speech_metrics.py`: `len(text.split()) if text.strip() else 0`.
A string whose characters are all whitespace (including the empty string) strips
to the empty — falsy — string. -/
def _count_words (t : List Char) : ℕ :=
  if t.all (·.isWhitespace) then 0 else (pyWords t).length

/-- Python `" ".join(parts)`. -/
def joinSpace : List (List Char) → List Char
  | [] => []
  | [t] => t
  | t :: ts => t ++ ' ' :: joinSpace ts

/-- Python `text.strip()`: remove leading and trailing whitespace. -/
def pyStrip (t : List Char) : List Char :=
  ((t.dropWhile (·.isWhitespace)).reverse.dropWhile (·.isWhitespace)).reverse

/-! ## Filler detection (`_count_fillers`)

The source matches each catalog phrase with the regex `\b<phrase>\b` over the
lowercased user text and counts the non-overlapping matches found by
`re.findall`'s left-to-right scan.  `\b` holds at a position iff exactly one of
the two adjacent characters (text edges counting as non-word) is a word
character (`[A-Za-z0-9_]`).  `scanAux` is that scan: it tries each position in
turn and, after a match, resumes right after the matched region (`skip` counts
the remaining characters of the matched region still to be consumed). -/

def FILLER_WORDS : List (List Char) :=
  ["um", "uh", "uh-huh", "like", "you know", "basically", "actually",
   "literally", "honestly", "right", "so", "well", "i mean", "sort of",
   "kind of"].map String.toList

def isWordChar (c : Char) : Bool := c.isAlphanum || c = '_'

def wordCtx : Option Char → Bool
  | none => false
  | some c => isWordChar c

/-- `bMatch s prev t` holds iff the pattern `\b s \b` matches at the start of
`t`, where `prev` is the character just before `t` in the full text (`none` at
the start of the text). -/
def bMatch (s : List Char) (prev : Option Char) (t : List Char) : Bool :=
  s.isPrefixOf t &&
    (wordCtx prev != wordCtx s.head?) &&
    (wordCtx s.getLast? != wordCtx (t.drop s.length).head?)

def scanAux (s : List Char) : Option Char → ℕ → List Char → ℕ
  | _, _, [] => 0
  | prev, 0, c :: rest =>
    if bMatch s prev (c :: rest) then 1 + scanAux s (some c) (s.length - 1) rest
    else scanAux s (some c) 0 rest
  | _, k+1, c :: rest => scanAux s (some c) k rest

/-- Number of matches of `\b s \b` found by `re.findall` in `t`. -/
def countOccurrences (s t : List Char) : ℕ := scanAux s none 0 t

/-- `_count_fillers` from `speech_metrics.py`.  The Python version iterates a
`set` in unspecified order building a dict keyed by phrase; we fix the
declaration order of the catalog (every use of the result — summation and
per-phrase lookup — is order-insensitive). -/
def _count_fillers (t : List Char) : List (List Char × ℕ) :=
  let text_lower := t.map Char.toLower
  FILLER_WORDS.map (fun f => (f, countOccurrences f text_lower))

/-! ## Assessments and the metrics record -/

def _assess_wpm (wpm : ℚ) : String :=
  if wpm < 110 then "too_slow"
  else if wpm ≤ 160 then "ideal"
  else "too_fast"

def _assess_talk_ratio (user_percent : ℚ) : String :=
  if user_percent < 30 then "too_quiet"
  else if user_percent ≤ 60 then "ideal"
  else "talking_too_much"

structure FillerWordsOut where
  total : ℕ
  per_minute : ℚ
  breakdown : List (List Char × ℕ)
deriving DecidableEq, Repr

structure TalkListenOut where
  user_percent : ℚ
  prospect_percent : ℚ
  assessment : String
deriving DecidableEq, Repr

structure MessageCountOut where
  user : ℕ
  assistant : ℕ
deriving DecidableEq, Repr

structure SpeechMetrics where
  words_per_minute : ℚ
  wpm_assessment : String
  total_user_words : ℕ
  total_assistant_words : ℕ
  filler_words : FillerWordsOut
  talk_listen_ratio : TalkListenOut
  longest_monologue_words : ℕ
  questions_asked : ℕ
  message_count : MessageCountOut
deriving DecidableEq, Repr

def _empty_metrics : SpeechMetrics where
  words_per_minute := 0
  wpm_assessment := "no_data"
  total_user_words := 0
  total_assistant_words := 0
  filler_words := { total := 0, per_minute := 0, breakdown := [] }
  talk_listen_ratio := { user_percent := 0, prospect_percent := 0, assessment := "no_data" }
  longest_monologue_words := 0
  questions_asked := 0
  message_count := { user := 0, assistant := 0 }

/-- `analyze_speech_metrics` from `speech_metrics.py`, line for line.  Floats
are modelled as exact rationals and Python's `round(x, 1)` as `roundTo1`. -/
def analyze_speech_metrics (transcript : Transcript) (duration_seconds : ℚ) :
    SpeechMetrics :=
  let messages := transcript.messages
  if messages.isEmpty || duration_seconds ≤ 0 then _empty_metrics
  else
    let user_messages := messages.filter (fun m => m.role == "user")
    let assistant_messages := messages.filter (fun m => m.role == "assistant")
    let user_text := joinSpace (user_messages.map (·.text))
    let assistant_text := joinSpace (assistant_messages.map (·.text))
    let user_words := _count_words user_text
    let assistant_words := _count_words assistant_text
    let total_words := user_words + assistant_words
    let duration_minutes := duration_seconds / 60
    let wpm := if 0 < duration_minutes
      then roundTo1 ((user_words : ℚ) / duration_minutes) else 0
    let filler_counts := _count_fillers user_text
    let total_fillers : ℕ := (filler_counts.map (·.2)).sum
    let filler_rate := if 0 < duration_minutes
      then roundTo1 ((total_fillers : ℚ) / duration_minutes) else 0
    let talk_ratio := if 0 < total_words
      then roundTo1 (((user_words : ℚ) / (total_words : ℚ)) * 100) else 0
    let longest_monologue :=
      user_messages.foldl (fun acc m => max acc (_count_words m.text)) 0
    let questions_asked :=
      (user_messages.filter (fun m => (pyStrip m.text).getLast? == some '?')).length
    { words_per_minute := wpm
      wpm_assessment := _assess_wpm wpm
      total_user_words := user_words
      total_assistant_words := assistant_words
      filler_words :=
        { total := total_fillers
          per_minute := filler_rate
          breakdown := filler_counts.filter (fun kv => 0 < kv.2) }
      talk_listen_ratio :=
        { user_percent := talk_ratio
          prospect_percent := roundTo1 (100 - talk_ratio)
          assessment := _assess_talk_ratio talk_ratio }
      longest_monologue_words := longest_monologue
      questions_asked := questions_asked
      message_count :=
        { user := user_messages.length, assistant := assistant_messages.length } }

/-! ## Emotion aggregation (`emotion_analysis.py`)

A prosody reading carries a `role`, an optional timestamp and a mapping from
emotion labels to scores; the mapping is modelled as an association list with
unique keys (Python dict). -/

structure Reading where
  role : String
  timestamp : Option ℚ := none
  emotions : List (String × ℚ) := []
deriving DecidableEq, Repr

structure EmotionData where
  prosody_scores : List Reading := []
deriving DecidableEq, Repr

/-- Association-list lookup: Python `d.get(k)` / `k in d`. -/
def alookup (k : String) (m : List (String × ℚ)) : Option ℚ :=
  (m.find? (fun kv => kv.1 == k)).map (·.2)

/-- `COACHING_EMOTIONS` in declaration order (Python dicts preserve insertion
order, so the source's iteration order is exactly this order). -/
def COACHING_EMOTIONS : List (String × List String) :=
  [("Confidence", ["Determination", "Confidence", "Conviction"]),
   ("Enthusiasm", ["Excitement", "Joy", "Interest"]),
   ("Hesitation", ["Doubt", "Confusion", "Anxiety"]),
   ("Empathy", ["Sympathy", "Compassion", "Understanding"]),
   ("Frustration", ["Anger", "Annoyance", "Contempt"])]

/-- Scores of the constituent labels actually present in a reading, in label
order: `[emotions.get(e, 0.0) for e in related_emotions if e in emotions]`. -/
def presentScores (related : List String) (emotions : List (String × ℚ)) : List ℚ :=
  related.filterMap (fun e => alookup e emotions)

/-- Per-reading per-dimension average: `sum(scores)/len(scores)` when at least
one constituent label is present, no sample otherwise. -/
def readingDimAvg (related : List String) (emotions : List (String × ℚ)) : Option ℚ :=
  match presentScores related emotions with
  | [] => none
  | scores => some (scores.sum / (scores.length : ℚ))

/-- Per-dimension list of per-reading averages.  The source accumulates these
lists in a reading-major loop (`for reading ... for dimension ...`), appending
each reading's sample to its dimension's list; traversing the readings once
per dimension yields the same list. -/
def dimSamples (readings : List Reading) (related : List String) : List ℚ :=
  readings.filterMap (fun r => readingDimAvg related r.emotions)

structure TimelinePoint where
  index : ℕ
  timestamp : Option ℚ
  scores : List (String × ℚ)
deriving DecidableEq, Repr

structure EmotionSummary where
  dimension_averages : List (String × ℚ)
  dominant_emotions : List (String × ℚ)
  timeline : List TimelinePoint
  total_readings : ℕ
deriving DecidableEq, Repr

def _empty_summary : EmotionSummary where
  dimension_averages := COACHING_EMOTIONS.map (fun d => (d.1, 0))
  dominant_emotions := []
  timeline := []
  total_readings := 0

/-- Descending-by-score comparison used for `sorted(..., key=lambda x: x[1],
reverse=True)`.  Python's sort is stable; `List.insertionSort` with this
non-strict total relation is the corresponding stable sort. -/
def domGE (a b : String × ℚ) : Prop := b.2 ≤ a.2

instance : DecidableRel domGE := fun a b => inferInstanceAs (Decidable (b.2 ≤ a.2))

instance : IsTotal (String × ℚ) domGE := ⟨fun a b => le_total b.2 a.2⟩

instance : IsTrans (String × ℚ) domGE := ⟨fun _ _ _ h h' => le_trans h' h⟩

/-- The rounding rule shared by the averages and the timeline points:
`round(sum(scores) / len(scores), 3) if scores else 0.0`. -/
def avgOrZero (scores : List ℚ) : ℚ :=
  if scores.isEmpty then 0 else roundTo3 (scores.sum / (scores.length : ℚ))

/-- `summarize_emotions` from `emotion_analysis.py`. -/
def summarize_emotions (emotion_data : EmotionData) : EmotionSummary :=
  let prosody_scores := emotion_data.prosody_scores
  if prosody_scores.isEmpty then _empty_summary
  else
    let user_readings := prosody_scores.filter (fun s => s.role == "user")
    if user_readings.isEmpty then _empty_summary
    else
      let averages : List (String × ℚ) :=
        COACHING_EMOTIONS.map (fun d => (d.1, avgOrZero (dimSamples user_readings d.2)))
      let dominant := averages.insertionSort domGE
      let timeline := user_readings.enum.map (fun ir =>
        { index := ir.1
          timestamp := ir.2.timestamp
          scores := COACHING_EMOTIONS.map (fun d =>
            (d.1, avgOrZero (presentScores d.2 ir.2.emotions))) })
      { dimension_averages := averages
        dominant_emotions := dominant.take 3
        timeline := timeline
        total_readings := user_readings.length }

/-! ## JSON values and the persisted session record

`analysis_results` is a JSON mapping (either the merged report or an error
descriptor), so we need a small JSON value type.  Numbers are exact rationals,
matching the float model used throughout. -/

inductive Json where
  | null
  | bool (b : Bool)
  | num (q : ℚ)
  | str (s : String)
  | arr (elems : List Json)
  | obj (members : List (String × Json))
deriving Repr

/-- Python `{**m, k: v}` semantics for the extra key: overwrite in place when
`k` is already a key of `m`, append otherwise (dict keys stay unique). -/
def dictInsert (m : List (String × Json)) (k : String) (v : Json) :
    List (String × Json) :=
  if m.any (fun kv => kv.1 == k) then
    m.map (fun kv => if kv.1 == k then (k, v) else kv)
  else m ++ [(k, v)]

/-- The dict returned by `analyze_speech_metrics`, as a JSON value. -/
def SpeechMetrics.toJson (m : SpeechMetrics) : Json :=
  .obj [("words_per_minute", .num m.words_per_minute),
        ("wpm_assessment", .str m.wpm_assessment),
        ("total_user_words", .num m.total_user_words),
        ("total_assistant_words", .num m.total_assistant_words),
        ("filler_words", .obj
          [("total", .num m.filler_words.total),
           ("per_minute", .num m.filler_words.per_minute),
           ("breakdown", .obj (m.filler_words.breakdown.map
             (fun kv => (String.mk kv.1, Json.num kv.2))))]),
        ("talk_listen_ratio", .obj
          [("user_percent", .num m.talk_listen_ratio.user_percent),
           ("prospect_percent", .num m.talk_listen_ratio.prospect_percent),
           ("assessment", .str m.talk_listen_ratio.assessment)]),
        ("longest_monologue_words", .num m.longest_monologue_words),
        ("questions_asked", .num m.questions_asked),
        ("message_count", .obj
          [("user", .num m.message_count.user),
           ("assistant", .num m.message_count.assistant)])]

/-- The dict returned by `summarize_emotions`, as a JSON value. -/
def EmotionSummary.toJson (s : EmotionSummary) : Json :=
  .obj [("dimension_averages", .obj
          (s.dimension_averages.map (fun kv => (kv.1, Json.num kv.2)))),
        ("dominant_emotions", .arr (s.dominant_emotions.map (fun kv =>
          Json.obj [("dimension", .str kv.1), ("score", .num kv.2)]))),
        ("timeline", .arr (s.timeline.map (fun p =>
          Json.obj (("index", Json.num p.index)
            :: ("timestamp", p.timestamp.elim Json.null Json.num)
            :: p.scores.map (fun kv => (kv.1, Json.num kv.2)))))),
        ("total_readings", .num s.total_readings)]

/-- The persisted `CallSession` row (the fields the analysis pipeline reads
and writes; spec §3). -/
structure CallSession where
  owner_id : String
  persona : String
  status : String
  duration_seconds : Option ℚ := none
  transcript : Option Transcript := none
  emotion_data : Option EmotionData := none
  analysis_results : Option (List (String × Json)) := none

/-- Python truthiness of `call.transcript`: `None` is falsy.  A stored
transcript dict always carries its `messages` key and is therefore a non-empty
— truthy — dict, even when the message list itself is empty. -/
def truthyTranscript : Option Transcript → Bool
  | none => false
  | some _ => true

/-- Python truthiness of `call.duration_seconds`: `None` and `0.0` are falsy,
every other float is truthy. -/
def truthyDuration : Option ℚ → Bool
  | none => false
  | some q => q != 0

/-! ## The report-generation job (`coaching_report.py`)

The only effects are database commits on the single session row and one
external generative-model call.  The row is passed explicitly (`none` models a
missing id) and the external call's outcome is an environment:
`LLMReply.failure` is any exception raised by the OpenAI client (network
error, timeout, missing choices), `reply content` a successful response whose
message content is `content` (`none` when the API returns no content);
`parseJson` is `json.loads` restricted to JSON objects — `none` covers both a
parse failure and a non-object result (either raises inside the `try`);
`unexpected` models any other exception inside the `try` block.  Every path of
the `except` handler rolls back, re-fetches the row (whose committed state is
the `analyzing` checkpoint) and persists the error outcome. -/

inductive LLMReply where
  | failure
  | reply (content : Option String)

structure AnalysisEnv where
  llm : LLMReply
  parseJson : String → Option (List (String × Json))
  unexpected : Bool := false

/-- `generate_coaching_report` from `coaching_report.py`; returns the final
committed row. -/
def generate_coaching_report (env : AnalysisEnv) (db : Option CallSession) :
    Option CallSession :=
  match db with
  | none => none
  | some call =>
    if !truthyTranscript call.transcript || !truthyDuration call.duration_seconds then
      some { call with
              status := "error"
              analysis_results :=
                some [("error", .str "Missing transcript or duration data")] }
    else
      let analyzing := { call with status := "analyzing" }
      let speech_metrics :=
        analyze_speech_metrics (call.transcript.getD ⟨[]⟩)
          (call.duration_seconds.getD 0)
      let emotion_summary := summarize_emotions (call.emotion_data.getD ⟨[]⟩)
      let failed : Option CallSession :=
        some { analyzing with
                status := "error"
                analysis_results :=
                  some [("error", .str "Analysis failed. Please try again.")] }
      match env.llm with
      | .failure => failed
      | .reply content =>
        let report_data? : Option (List (String × Json)) :=
          match content with
          | none => some []
          | some s => if s = "" then some [] else env.parseJson s
        match report_data? with
        | none => failed
        | some report_data =>
          if env.unexpected then failed
          else
            some { analyzing with
                    status := "done"
                    analysis_results := some (dictInsert
                      (dictInsert report_data "speech_metrics" speech_metrics.toJson)
                      "emotion_summary" emotion_summary.toJson) }

/-- The report the job would obtain from the model under `env`, `none` when
any step of the attempt fails.  Used to characterise `generate_coaching_report`
independently of its control flow. -/
def obtainReport (env : AnalysisEnv) : Option (List (String × Json)) :=
  match env.llm with
  | .failure => none
  | .reply content =>
    if env.unexpected then none
    else
      match content with
      | none => some []
      | some s => if s = "" then some [] else env.parseJson s

/-! ## The trigger endpoint (`calls.py`, `analyze_call_session`) -/

inductive ApiResult (α : Type) where
  | httpError (status_code : ℕ) (detail : String)
  | ok (value : α)

/-- `analyze_call_session` from `api/routes/calls.py`.  `ok "Analysis started"`
is returned exactly on the path that enqueues the background analysis task. -/
def analyze_call_session (db : Option CallSession) (current_user_id : String) :
    ApiResult String :=
  match db with
  | none => .httpError 404 "Call session not found"
  | some call =>
    if call.owner_id != current_user_id then
      .httpError 400 "Not enough permissions"
    else if !(call.status == "completed" || call.status == "error") then
      .httpError 400
        ("Call must be completed before analysis. Current status: " ++ call.status)
    else .ok "Analysis started"

/-! ## Helper lemmas -/

theorem assess_wpm_too_slow_iff (q : ℚ) : _assess_wpm q = "too_slow" ↔ q < 110 := by
  unfold _assess_wpm
  by_cases h1 : q < 110
  · simp [h1]
  · by_cases h2 : q ≤ 160 <;> simp [h1, h2]

theorem assess_wpm_ideal_iff (q : ℚ) : _assess_wpm q = "ideal" ↔ 110 ≤ q ∧ q ≤ 160 := by
  unfold _assess_wpm
  by_cases h1 : q < 110
  · simp [h1, not_le.mpr h1]
  · by_cases h2 : q ≤ 160
    · simp [h1, h2, not_lt.mp h1]
    · simp [h1, h2]

theorem assess_wpm_too_fast_iff (q : ℚ) : _assess_wpm q = "too_fast" ↔ 160 < q := by
  unfold _assess_wpm
  by_cases h1 : q < 110
  · simp [h1, show ¬(160 < q) by linarith]
  · by_cases h2 : q ≤ 160
    · simp [h1, h2, not_lt.mpr h2]
    · simp [h1, h2, not_le.mp h2]

theorem assess_talk_too_quiet_iff (q : ℚ) :
    _assess_talk_ratio q = "too_quiet" ↔ q < 30 := by
  unfold _assess_talk_ratio
  by_cases h1 : q < 30
  · simp [h1]
  · by_cases h2 : q ≤ 60 <;> simp [h1, h2]

theorem assess_talk_ideal_iff (q : ℚ) :
    _assess_talk_ratio q = "ideal" ↔ 30 ≤ q ∧ q ≤ 60 := by
  unfold _assess_talk_ratio
  by_cases h1 : q < 30
  · simp [h1, not_le.mpr h1]
  · by_cases h2 : q ≤ 60
    · simp [h1, h2, not_lt.mp h1]
    · simp [h1, h2]

theorem assess_talk_too_much_iff (q : ℚ) :
    _assess_talk_ratio q = "talking_too_much" ↔ 60 < q := by
  unfold _assess_talk_ratio
  by_cases h1 : q < 30
  · simp [h1, show ¬(60 < q) by linarith]
  · by_cases h2 : q ≤ 60
    · simp [h1, h2, not_lt.mpr h2]
    · simp [h1, h2, not_le.mp h2]

/-! ## C4: empty transcript or non-positive duration -/

/-- C4: for every transcript with zero utterances, and for every transcript
paired with a duration ≤ 0, `analyze_speech_metrics` returns exactly the
defined empty-metrics constant (the function is total, so it never raises). -/
theorem speech_metrics_empty_input (t : Transcript) (d : ℚ)
    (h : t.messages = [] ∨ d ≤ 0) :
    analyze_speech_metrics t d = _empty_metrics := by
  rcases h with h | h <;> simp [analyze_speech_metrics, h]

/-- Witness for C4 at a concrete empty transcript. -/
theorem speech_metrics_empty_input_witness :
    analyze_speech_metrics ⟨[]⟩ 60 = _empty_metrics :=
  speech_metrics_empty_input ⟨[]⟩ 60 (Or.inl rfl)

/-! ## C3: the trigger endpoint's status precondition -/

/-- C3: with ownership satisfied, the trigger endpoint starts the analysis job
exactly when the session status is `completed` or `error` (so an `error`
session can be re-triggered), and for every other status it rejects the
request with a 400 error instead of invoking analysis. -/
theorem trigger_status_precondition (call : CallSession) (uid : String)
    (howner : call.owner_id = uid) :
    (analyze_call_session (some call) uid = .ok "Analysis started"
      ↔ (call.status = "completed" ∨ call.status = "error"))
    ∧ (¬(call.status = "completed" ∨ call.status = "error") →
        analyze_call_session (some call) uid = .httpError 400
          ("Call must be completed before analysis. Current status: " ++ call.status)) := by
  unfold analyze_call_session
  subst howner
  constructor
  · constructor
    · intro h
      by_contra hs
      push_neg at hs
      simp [hs.1, hs.2] at h
    · intro h
      rcases h with h | h <;> simp [h]
  · intro hs
    push_neg at hs
    simp [hs.1, hs.2]

/-- Witness for C3: an `error`-status session owned by the caller is accepted
for re-analysis. -/
theorem trigger_status_precondition_witness :
    analyze_call_session
        (some { owner_id := "u1", persona := "friendly_prospect", status := "error" })
        "u1"
      = .ok "Analysis started" :=
  ((trigger_status_precondition
      { owner_id := "u1", persona := "friendly_prospect", status := "error" }
      "u1" rfl).1).mpr (Or.inr rfl)

/-! ## Characterising a run of the report generator -/

/-- The error row persisted by the `except` handler / the missing-data check. -/
def errorRow (call : CallSession) (msg : String) : CallSession :=
  { call with status := "error", analysis_results := some [("error", Json.str msg)] }

/-- The row persisted on success. -/
def doneRow (call : CallSession) (report_data : List (String × Json)) : CallSession :=
  { call with
      status := "done"
      analysis_results := some (dictInsert
        (dictInsert report_data "speech_metrics"
          (analyze_speech_metrics (call.transcript.getD ⟨[]⟩)
            (call.duration_seconds.getD 0)).toJson)
        "emotion_summary"
        (summarize_emotions (call.emotion_data.getD ⟨[]⟩)).toJson) }

theorem generate_run (env : AnalysisEnv) (call : CallSession)
    (h1 : truthyTranscript call.transcript = true)
    (h2 : truthyDuration call.duration_seconds = true) :
    generate_coaching_report env (some call)
      = some (match obtainReport env with
              | some report_data => doneRow call report_data
              | none => errorRow call "Analysis failed. Please try again.") := by
  rcases env with ⟨llm, parse, unex⟩
  rcases llm with _ | content
  · simp [generate_coaching_report, obtainReport, h1, h2, errorRow]
  · rcases unex with _ | _
    · rcases content with _ | s
      · simp [generate_coaching_report, obtainReport, h1, h2, doneRow]
      · by_cases hs : s = ""
        · simp [generate_coaching_report, obtainReport, h1, h2, hs, doneRow]
        · cases hp : parse s <;>
            simp [generate_coaching_report, obtainReport, h1, h2, hs, hp,
              doneRow, errorRow]
    · rcases content with _ | s
      · simp [generate_coaching_report, obtainReport, h1, h2, errorRow]
      · by_cases hs : s = ""
        · simp [generate_coaching_report, obtainReport, h1, h2, hs, errorRow]
        · cases hp : parse s <;>
            simp [generate_coaching_report, obtainReport, h1, h2, hs, hp, errorRow]

/-! ## C2: the missing-data error branch (corrected)

The source guard is `if not call.transcript or not call.duration_seconds:`;
under Python truthiness a present duration of `0` (and a `None` transcript)
fail the guard, so a session with a transcript and `duration_seconds == 0`
DOES take the missing-data branch, contrary to the claim. -/

def c2Session : CallSession :=
  { owner_id := "u1"
    persona := "friendly_prospect"
    status := "completed"
    duration_seconds := some 0
    transcript := some ⟨[⟨"user", "Hello there".toList, none⟩]⟩ }

def c2Env : AnalysisEnv :=
  { llm := .reply (some "{}"), parseJson := fun _ => some [], unexpected := false }

/-- C2 counterexample: a session whose transcript is set and whose
`duration_seconds` equals 0 takes the missing-data error branch, refuting the
claim that it would not (and hence the claimed absent-iff characterisation). -/
theorem missing_data_branch_zero_duration :
    generate_coaching_report c2Env (some c2Session)
      = some { c2Session with
                status := "error"
                analysis_results :=
                  some [("error", Json.str "Missing transcript or duration data")] } := by
  rfl

/-- C2 amended: the analysis job takes its missing-data error branch (status
`error`, `analysis_results = {"error": "Missing transcript or duration data"}`,
persisted before any external call — the outcome is independent of the model
environment) if and only if the transcript is falsy (`None`) or
`duration_seconds` is falsy (`None` or `0`); in particular a present-but-zero
duration takes the branch. -/
theorem missing_data_branch_iff (env : AnalysisEnv) (call : CallSession) :
    generate_coaching_report env (some call)
        = some { call with
                  status := "error"
                  analysis_results :=
                    some [("error", Json.str "Missing transcript or duration data")] }
      ↔ (truthyTranscript call.transcript = false
          ∨ truthyDuration call.duration_seconds = false) := by
  constructor
  · intro h
    by_contra hc
    push_neg at hc
    obtain ⟨h1, h2⟩ := hc
    rw [Bool.ne_false_iff] at h1 h2
    rw [generate_run env call h1 h2] at h
    cases hr : obtainReport env <;> rw [hr] at h <;>
      simp [errorRow, doneRow, CallSession.mk.injEq] at h
  · intro h
    have hcond :
        (!truthyTranscript call.transcript || !truthyDuration call.duration_seconds)
          = true := by
      rcases h with h | h <;> simp [h]
    unfold generate_coaching_report
    simp [hcond]

/-! ## C1: every run with data present ends in exactly one of two persisted
outcomes -/

/-- C1: for every analysis run that loads an existing session with transcript
and duration present (truthy), the run terminates (the embedding is a total
function — nothing escapes) in exactly one of two persisted rows: on success
of the model call the parsed report merged with the `speech_metrics` and
`emotion_summary` keys under status `done`; on any failure after the
`analyzing` checkpoint the freshly reloaded row with status `error` and
`analysis_results = {"error": "Analysis failed. Please try again."}`. -/
theorem analysis_run_two_outcomes (env : AnalysisEnv) (call : CallSession)
    (h1 : truthyTranscript call.transcript = true)
    (h2 : truthyDuration call.duration_seconds = true) :
    ∃ r : CallSession, generate_coaching_report env (some call) = some r
      ∧ ((∃ report_data, obtainReport env = some report_data
            ∧ r = doneRow call report_data ∧ r.status = "done")
          ∨ (obtainReport env = none
              ∧ r = errorRow call "Analysis failed. Please try again."
              ∧ r.status = "error"))
      ∧ (r.status = "done" ↔ (obtainReport env).isSome) := by
  rw [generate_run env call h1 h2]
  cases hr : obtainReport env with
  | none =>
    exact ⟨_, rfl, Or.inr ⟨rfl, rfl, rfl⟩, by simp [errorRow]⟩
  | some report_data =>
    exact ⟨_, rfl, Or.inl ⟨report_data, rfl, rfl, rfl⟩, by simp [doneRow]⟩

def c1Session : CallSession :=
  { owner_id := "u1"
    persona := "friendly_prospect"
    status := "analyzing"
    duration_seconds := some 120
    transcript := some ⟨[⟨"user", "Hello there".toList, none⟩]⟩ }

def c1Env : AnalysisEnv :=
  { llm := .reply (some "{}"), parseJson := fun _ => some [], unexpected := false }

/-- Witness for C1 at a concrete session and environment. -/
theorem analysis_run_two_outcomes_witness :
    ∃ r : CallSession, generate_coaching_report c1Env (some c1Session) = some r
      ∧ ((∃ report_data, obtainReport c1Env = some report_data
            ∧ r = doneRow c1Session report_data ∧ r.status = "done")
          ∨ (obtainReport c1Env = none
              ∧ r = errorRow c1Session "Analysis failed. Please try again."
              ∧ r.status = "error"))
      ∧ (r.status = "done" ↔ (obtainReport c1Env).isSome) :=
  analysis_run_two_outcomes c1Env c1Session rfl (by decide)

/-! ## Word-count bridging lemmas

The source computes the user word count as `len(" ".join(texts).split())`; the
spec describes it as the sum over the user utterances of their whitespace
token counts.  These agree because joining with a single space concatenates
the token lists. -/

theorem wordsAux_append_space (b : List Char) :
    ∀ (a cur : List Char),
      wordsAux cur (a ++ ' ' :: b) = wordsAux cur a ++ wordsAux [] b := by
  intro a
  induction a with
  | nil =>
    intro cur
    by_cases hc : cur.isEmpty <;> simp [wordsAux, hc]
  | cons c a ih =>
    intro cur
    by_cases hw : c.isWhitespace
    · by_cases hc : cur.isEmpty <;> simp [wordsAux, hw, hc, ih]
    · simp [wordsAux, hw, ih]

theorem wordsAux_all_whitespace :
    ∀ t : List Char, t.all (·.isWhitespace) = true → wordsAux [] t = [] := by
  intro t ht
  induction t with
  | nil => rfl
  | cons c t ih =>
    simp only [List.all_cons, Bool.and_eq_true] at ht
    simp [wordsAux, ht.1, ih ht.2]

theorem count_words_eq_length (t : List Char) :
    _count_words t = (pyWords t).length := by
  unfold _count_words
  split
  · rw [pyWords, wordsAux_all_whitespace t (by assumption)]; rfl
  · rfl

theorem count_words_joinSpace :
    ∀ ts : List (List Char),
      _count_words (joinSpace ts) = (ts.map _count_words).sum := by
  intro ts
  induction ts with
  | nil => rfl
  | cons t ts ih =>
    cases ts with
    | nil => simp [joinSpace]
    | cons u ts =>
      have hj : pyWords (joinSpace (t :: u :: ts))
          = pyWords t ++ pyWords (joinSpace (u :: ts)) := by
        show wordsAux [] (t ++ ' ' :: joinSpace (u :: ts)) = _
        rw [wordsAux_append_space]
        rfl
      rw [count_words_eq_length, hj, List.length_append,
        ← count_words_eq_length (joinSpace (u :: ts)), ih,
        ← count_words_eq_length t]
      simp

/-- User-role word count as the spec states it: the sum, over the user-role
utterances, of their whitespace-delimited non-empty token counts. -/
def userWordSum (t : Transcript) : ℕ :=
  ((t.messages.filter (fun m => m.role == "user")).map
    (fun m => _count_words m.text)).sum

/-- Assistant-role word count, same shape. -/
def assistantWordSum (t : Transcript) : ℕ :=
  ((t.messages.filter (fun m => m.role == "assistant")).map
    (fun m => _count_words m.text)).sum

/-- The joined user-role text (`user_text` local of the source). -/
def userTextOf (t : Transcript) : List Char :=
  joinSpace ((t.messages.filter (fun m => m.role == "user")).map (·.text))

/-- The joined assistant-role text (`assistant_text` local of the source). -/
def assistantTextOf (t : Transcript) : List Char :=
  joinSpace ((t.messages.filter (fun m => m.role == "assistant")).map (·.text))

/-- The `total_fillers` local of the source. -/
def fillerTotalOf (t : Transcript) : ℕ :=
  ((_count_fillers (userTextOf t)).map (·.2)).sum

/-- The `talk_ratio` local of the source. -/
def talkRatioOf (t : Transcript) : ℚ :=
  if 0 < _count_words (userTextOf t) + _count_words (assistantTextOf t)
  then roundTo1 (((_count_words (userTextOf t) : ℚ)
        / ((_count_words (userTextOf t) + _count_words (assistantTextOf t) : ℕ) : ℚ))
          * 100)
  else 0

/-- On a non-empty transcript with positive duration, `analyze_speech_metrics`
reduces to its main branch with the duration guards discharged. -/
theorem analyze_pos (t : Transcript) (d : ℚ) (hm : t.messages ≠ []) (hd : 0 < d) :
    analyze_speech_metrics t d =
      { words_per_minute := roundTo1 ((_count_words (userTextOf t) : ℚ) / (d / 60))
        wpm_assessment :=
          _assess_wpm (roundTo1 ((_count_words (userTextOf t) : ℚ) / (d / 60)))
        total_user_words := _count_words (userTextOf t)
        total_assistant_words := _count_words (assistantTextOf t)
        filler_words :=
          { total := fillerTotalOf t
            per_minute := roundTo1 ((fillerTotalOf t : ℚ) / (d / 60))
            breakdown := (_count_fillers (userTextOf t)).filter (fun kv => 0 < kv.2) }
        talk_listen_ratio :=
          { user_percent := talkRatioOf t
            prospect_percent := roundTo1 (100 - talkRatioOf t)
            assessment := _assess_talk_ratio (talkRatioOf t) }
        longest_monologue_words :=
          (t.messages.filter (fun m => m.role == "user")).foldl
            (fun acc m => max acc (_count_words m.text)) 0
        questions_asked :=
          ((t.messages.filter (fun m => m.role == "user")).filter
            (fun m => (pyStrip m.text).getLast? == some '?')).length
        message_count :=
          { user := (t.messages.filter (fun m => m.role == "user")).length
            assistant := (t.messages.filter (fun m => m.role == "assistant")).length } } := by
  have hme : t.messages.isEmpty = false := by
    cases h : t.messages with
    | nil => exact absurd h hm
    | cons a l => rfl
  have h60 : (0:ℚ) < d / 60 := by positivity
  simp only [analyze_speech_metrics, hme, Bool.false_or, decide_eq_true_eq]
  rw [if_neg (by simp [not_le.mpr hd])]
  simp only [if_pos h60]
  rfl

/-! ## C5: words-per-minute formula and pace assessment -/

/-- C5: on a non-empty transcript with positive duration, the reported
words-per-minute is the user-role word count (whitespace tokens of the user
utterances) divided by the duration in minutes (`d/60`, real division) and
rounded to one decimal; the pace label is `too_slow` exactly below 110,
`ideal` exactly on [110, 160] and `too_fast` exactly above 160. -/
theorem wpm_formula_and_assessment (t : Transcript) (d : ℚ)
    (hm : t.messages ≠ []) (hd : 0 < d) :
    (analyze_speech_metrics t d).words_per_minute
        = roundTo1 ((userWordSum t : ℚ) / (d / 60))
    ∧ ((analyze_speech_metrics t d).wpm_assessment = "too_slow"
        ↔ (analyze_speech_metrics t d).words_per_minute < 110)
    ∧ ((analyze_speech_metrics t d).wpm_assessment = "ideal"
        ↔ 110 ≤ (analyze_speech_metrics t d).words_per_minute
            ∧ (analyze_speech_metrics t d).words_per_minute ≤ 160)
    ∧ ((analyze_speech_metrics t d).wpm_assessment = "too_fast"
        ↔ 160 < (analyze_speech_metrics t d).words_per_minute) := by
  have hw : _count_words (userTextOf t) = userWordSum t := by
    rw [userTextOf, count_words_joinSpace, userWordSum, List.map_map]
    rfl
  rw [analyze_pos t d hm hd, hw]
  exact ⟨rfl, assess_wpm_too_slow_iff _, assess_wpm_ideal_iff _,
    assess_wpm_too_fast_iff _⟩

def c5Transcript : Transcript :=
  ⟨[⟨"user", "one two three four five".toList, none⟩,
    ⟨"assistant", "ok".toList, none⟩]⟩

/-- Witness for C5 at a concrete transcript and duration. -/
theorem wpm_formula_and_assessment_witness :
    c5Transcript.messages ≠ [] ∧ (0:ℚ) < 60
      ∧ ((analyze_speech_metrics c5Transcript 60).words_per_minute
            = roundTo1 ((userWordSum c5Transcript : ℚ) / (60 / 60))
          ∧ ((analyze_speech_metrics c5Transcript 60).wpm_assessment = "too_slow"
              ↔ (analyze_speech_metrics c5Transcript 60).words_per_minute < 110)
          ∧ ((analyze_speech_metrics c5Transcript 60).wpm_assessment = "ideal"
              ↔ 110 ≤ (analyze_speech_metrics c5Transcript 60).words_per_minute
                  ∧ (analyze_speech_metrics c5Transcript 60).words_per_minute ≤ 160)
          ∧ ((analyze_speech_metrics c5Transcript 60).wpm_assessment = "too_fast"
              ↔ 160 < (analyze_speech_metrics c5Transcript 60).words_per_minute)) :=
  ⟨by simp [c5Transcript], by norm_num,
    wpm_formula_and_assessment c5Transcript 60 (by simp [c5Transcript]) (by norm_num)⟩

/-! ## C7: talk/listen split (corrected)

The source computes `prospect_percent = round(100 - talk_ratio, 1)` where
`talk_ratio` is already rounded to one decimal, so `100 - talk_ratio` is an
exact one-decimal value and the second `round` fixes it: the two percentages
always sum to exactly 100, refuting the claim that for some inputs they do
not. -/

theorem roundTo1_hundred : roundTo1 100 = 100 := by
  have h : (100 : ℚ) = ((1000 : ℤ) : ℚ) / 10 := by norm_num
  rw [h, roundTo1_div_ten]

theorem roundTo1_complement (q : ℚ) :
    roundTo1 q + roundTo1 (100 - roundTo1 q) = 100 := by
  have h1 : (100 : ℚ) - roundTo1 q
      = ((1000 - roundHalfEven (q * 10) : ℤ) : ℚ) / 10 := by
    rw [roundTo1]
    push_cast
    ring
  rw [h1, roundTo1_div_ten, roundTo1]
  push_cast
  ring

theorem talk_ratio_sums_to_hundred (t : Transcript) (d : ℚ) :
    t.messages = [] ∨ d ≤ 0
      ∨ (analyze_speech_metrics t d).talk_listen_ratio.user_percent
          + (analyze_speech_metrics t d).talk_listen_ratio.prospect_percent
          = 100 := by
  by_cases hm : t.messages = []
  · exact Or.inl hm
  by_cases hd : d ≤ 0
  · exact Or.inr (Or.inl hd)
  refine Or.inr (Or.inr ?_)
  rw [analyze_pos t d hm (lt_of_not_le hd)]
  show talkRatioOf t + roundTo1 (100 - talkRatioOf t) = 100
  unfold talkRatioOf
  by_cases hc : 0 < _count_words (userTextOf t) + _count_words (assistantTextOf t)
  · rw [if_pos hc]
    exact roundTo1_complement _
  · rw [if_neg hc, sub_zero, roundTo1_hundred, zero_add]

/-- The negation of the claim's rounding-drift clause, packaged as one
proposition: for every transcript and duration (outside the empty-metrics
branch) the reported `user_percent` and `prospect_percent` sum to exactly
100. -/
def talkRatioAlwaysSumsTo100 : Prop :=
  ∀ (t : Transcript) (d : ℚ),
    t.messages = [] ∨ d ≤ 0
      ∨ (analyze_speech_metrics t d).talk_listen_ratio.user_percent
          + (analyze_speech_metrics t d).talk_listen_ratio.prospect_percent = 100

/-- C7 counterexample: the claim asserts that for some inputs the two reported
percentages do not sum exactly to 100; this proves its negation — they always
sum to exactly 100, because the prospect percentage is `round(100 - p, 1)` of
the already-rounded one-decimal user percentage `p`. -/
theorem talk_ratio_sum_never_drifts : talkRatioAlwaysSumsTo100 :=
  fun t d => talk_ratio_sums_to_hundred t d

/-- C7 amended: on a non-empty transcript with positive duration, the user
percentage is the user word count over the total word count times 100, rounded
to one decimal (0 when there are no words at all); the prospect percentage is
`round(100 - user_percent, 1)`; the two always sum to exactly 100; and the
assessment is `too_quiet` exactly below 30, `ideal` exactly on [30, 60], and
`talking_too_much` exactly above 60. -/
theorem talk_ratio_formula_and_assessment (t : Transcript) (d : ℚ)
    (hm : t.messages ≠ []) (hd : 0 < d) :
    (analyze_speech_metrics t d).talk_listen_ratio.user_percent
        = (if 0 < userWordSum t + assistantWordSum t
           then roundTo1 (((userWordSum t : ℚ)
                  / ((userWordSum t + assistantWordSum t : ℕ) : ℚ)) * 100)
           else 0)
    ∧ (analyze_speech_metrics t d).talk_listen_ratio.prospect_percent
        = roundTo1 (100 - (analyze_speech_metrics t d).talk_listen_ratio.user_percent)
    ∧ (analyze_speech_metrics t d).talk_listen_ratio.user_percent
        + (analyze_speech_metrics t d).talk_listen_ratio.prospect_percent = 100
    ∧ ((analyze_speech_metrics t d).talk_listen_ratio.assessment = "too_quiet"
        ↔ (analyze_speech_metrics t d).talk_listen_ratio.user_percent < 30)
    ∧ ((analyze_speech_metrics t d).talk_listen_ratio.assessment = "ideal"
        ↔ 30 ≤ (analyze_speech_metrics t d).talk_listen_ratio.user_percent
            ∧ (analyze_speech_metrics t d).talk_listen_ratio.user_percent ≤ 60)
    ∧ ((analyze_speech_metrics t d).talk_listen_ratio.assessment = "talking_too_much"
        ↔ 60 < (analyze_speech_metrics t d).talk_listen_ratio.user_percent) := by
  have hu : _count_words (userTextOf t) = userWordSum t := by
    rw [userTextOf, count_words_joinSpace, userWordSum, List.map_map]
    rfl
  have ha : _count_words (assistantTextOf t) = assistantWordSum t := by
    rw [assistantTextOf, count_words_joinSpace, assistantWordSum, List.map_map]
    rfl
  have hsum := talk_ratio_sums_to_hundred t d
  rcases hsum with h | h | h
  · exact absurd h hm
  · exact absurd h (not_le.mpr hd)
  rw [analyze_pos t d hm hd] at h ⊢
  refine ⟨?_, rfl, h, assess_talk_too_quiet_iff _, assess_talk_ideal_iff _,
    assess_talk_too_much_iff _⟩
  show talkRatioOf t = _
  unfold talkRatioOf
  rw [hu, ha]

def c7Transcript : Transcript :=
  ⟨[⟨"user", "alpha beta gamma".toList, none⟩,
    ⟨"assistant", "delta epsilon zeta eta".toList, none⟩]⟩

/-- Witness for C7 at a concrete transcript and duration. -/
theorem talk_ratio_formula_witness :
    c7Transcript.messages ≠ [] ∧ (0:ℚ) < 30
      ∧ ((analyze_speech_metrics c7Transcript 30).talk_listen_ratio.user_percent
            = (if 0 < userWordSum c7Transcript + assistantWordSum c7Transcript
               then roundTo1 (((userWordSum c7Transcript : ℚ)
                      / ((userWordSum c7Transcript
                            + assistantWordSum c7Transcript : ℕ) : ℚ)) * 100)
               else 0)
          ∧ (analyze_speech_metrics c7Transcript 30).talk_listen_ratio.prospect_percent
              = roundTo1 (100 -
                  (analyze_speech_metrics c7Transcript 30).talk_listen_ratio.user_percent)
          ∧ (analyze_speech_metrics c7Transcript 30).talk_listen_ratio.user_percent
              + (analyze_speech_metrics c7Transcript 30).talk_listen_ratio.prospect_percent
              = 100
          ∧ ((analyze_speech_metrics c7Transcript 30).talk_listen_ratio.assessment
                = "too_quiet"
              ↔ (analyze_speech_metrics c7Transcript 30).talk_listen_ratio.user_percent
                  < 30)
          ∧ ((analyze_speech_metrics c7Transcript 30).talk_listen_ratio.assessment
                = "ideal"
              ↔ 30 ≤ (analyze_speech_metrics c7Transcript 30).talk_listen_ratio.user_percent
                  ∧ (analyze_speech_metrics c7Transcript 30).talk_listen_ratio.user_percent
                      ≤ 60)
          ∧ ((analyze_speech_metrics c7Transcript 30).talk_listen_ratio.assessment
                = "talking_too_much"
              ↔ 60 < (analyze_speech_metrics c7Transcript 30).talk_listen_ratio.user_percent)) :=
  ⟨by simp [c7Transcript], by norm_num,
    talk_ratio_formula_and_assessment c7Transcript 30 (by simp [c7Transcript])
      (by norm_num)⟩

/-! ## C10: transcripts without user utterances are not "no data" -/

theorem assess_wpm_ne_no_data (q : ℚ) : _assess_wpm q ≠ "no_data" := by
  unfold _assess_wpm
  split
  · simp
  · split <;> simp

theorem assess_talk_ne_no_data (q : ℚ) : _assess_talk_ratio q ≠ "no_data" := by
  unfold _assess_talk_ratio
  split
  · simp
  · split <;> simp

/-- C10: a transcript with at least one utterance but none of role `user`,
under a positive duration, does not produce the `no_data` result: it reports
0 words per minute assessed `too_slow`, and — when the assistant word count is
positive — a 0 user percentage assessed `too_quiet`; conversely the `no_data`
labels only ever appear when the utterance list is empty or the duration is
non-positive. -/
theorem no_user_utterances_not_no_data :
    (∀ (t : Transcript) (d : ℚ), t.messages ≠ [] →
      (∀ m ∈ t.messages, m.role ≠ "user") → 0 < d →
        (analyze_speech_metrics t d).words_per_minute = 0
        ∧ (analyze_speech_metrics t d).wpm_assessment = "too_slow"
        ∧ (0 < assistantWordSum t →
            (analyze_speech_metrics t d).talk_listen_ratio.user_percent = 0
            ∧ (analyze_speech_metrics t d).talk_listen_ratio.assessment
                = "too_quiet"))
    ∧ (∀ (t : Transcript) (d : ℚ),
        ((analyze_speech_metrics t d).wpm_assessment = "no_data"
          ∨ (analyze_speech_metrics t d).talk_listen_ratio.assessment = "no_data")
        → t.messages = [] ∨ d ≤ 0) := by
  constructor
  · intro t d hm hnou hd
    have hfilter : t.messages.filter (fun m => m.role == "user") = [] := by
      rw [List.filter_eq_nil_iff]
      intro m hmem
      simpa using hnou m hmem
    have ha : _count_words (assistantTextOf t) = assistantWordSum t := by
      rw [assistantTextOf, count_words_joinSpace, assistantWordSum, List.map_map]
      rfl
    have huw : _count_words (userTextOf t) = 0 := by
      rw [userTextOf, hfilter]
      rfl
    have hz : roundTo1 (((0:ℕ) : ℚ) / (d / 60)) = 0 := by
      rw [show ((0:ℕ) : ℚ) / (d / 60) = 0 by simp]
      exact roundTo1_zero
    rw [analyze_pos t d hm hd, huw]
    refine ⟨hz, ?_, ?_⟩
    · show _assess_wpm (roundTo1 (((0:ℕ) : ℚ) / (d / 60))) = "too_slow"
      rw [hz, assess_wpm_too_slow_iff]
      norm_num
    · intro hassist
      have htr : talkRatioOf t = 0 := by
        unfold talkRatioOf
        rw [huw, ha, if_pos (by simpa using hassist)]
        rw [show (((0:ℕ) : ℚ) / (((0 + assistantWordSum t : ℕ)) : ℚ)) * 100 = 0 by simp]
        exact roundTo1_zero
      refine ⟨htr, ?_⟩
      show _assess_talk_ratio (talkRatioOf t) = "too_quiet"
      rw [htr, assess_talk_too_quiet_iff]
      norm_num
  · intro t d hlabel
    by_contra hc
    push_neg at hc
    obtain ⟨hm, hd⟩ := hc
    rw [analyze_pos t d hm hd] at hlabel
    rcases hlabel with h | h
    · exact assess_wpm_ne_no_data _ h
    · exact assess_talk_ne_no_data _ h

def c10Transcript : Transcript :=
  ⟨[⟨"assistant", "hello how can I help".toList, none⟩]⟩

/-- Witness for C10 at a concrete assistant-only transcript. -/
theorem no_user_utterances_witness :
    (analyze_speech_metrics c10Transcript 60).words_per_minute = 0
    ∧ (analyze_speech_metrics c10Transcript 60).wpm_assessment = "too_slow"
    ∧ (0 < assistantWordSum c10Transcript →
        (analyze_speech_metrics c10Transcript 60).talk_listen_ratio.user_percent = 0
        ∧ (analyze_speech_metrics c10Transcript 60).talk_listen_ratio.assessment
            = "too_quiet") :=
  no_user_utterances_not_no_data.1 c10Transcript 60 (by simp [c10Transcript])
    (by intro m hm; simp [c10Transcript] at hm; simp [hm]) (by norm_num)

/-! ## C6: filler detection

`occursBAt s t i` says the pattern `\b s \b` matches the text `t` at position
`i`: `s` occurs as a sub-sequence starting at `i` and both ends sit on word
boundaries (so an occurrence of `s` strictly inside a longer word does not
qualify).  The scan count is positive exactly when such a position exists; in
particular a filler occurring only as a substring of a longer word is never
counted. -/

def ctxAt (prev : Option Char) (t : List Char) (i : ℕ) : Option Char :=
  if i = 0 then prev else t[i-1]?

def occursBAt (s t : List Char) (i : ℕ) : Bool :=
  bMatch s (ctxAt none t i) (t.drop i)

theorem ctxAt_shift (prev : Option Char) (c : Char) (rest : List Char) (i : ℕ) :
    ctxAt prev (c :: rest) (i + 1) = ctxAt (some c) rest i := by
  cases i with
  | zero => simp [ctxAt]
  | succ j => simp [ctxAt]

theorem scanAux_pos (s : List Char) :
    ∀ (t : List Char) (prev : Option Char) (skip : ℕ),
      0 < scanAux s prev skip t →
      ∃ i, bMatch s (ctxAt prev t i) (t.drop i) = true := by
  intro t
  induction t with
  | nil => intro prev skip h; simp [scanAux] at h
  | cons c rest ih =>
    intro prev skip h
    cases skip with
    | succ k =>
      obtain ⟨i, hi⟩ := ih (some c) k (by simpa [scanAux] using h)
      exact ⟨i + 1, by rw [ctxAt_shift, List.drop_succ_cons]; exact hi⟩
    | zero =>
      by_cases hb : bMatch s prev (c :: rest) = true
      · exact ⟨0, by simpa [ctxAt] using hb⟩
      · have h' : 0 < scanAux s (some c) 0 rest := by
          simpa [scanAux, hb] using h
        obtain ⟨i, hi⟩ := ih (some c) 0 h'
        exact ⟨i + 1, by rw [ctxAt_shift, List.drop_succ_cons]; exact hi⟩

theorem scanAux_zero (s : List Char) (hs : s ≠ []) :
    ∀ (t : List Char) (prev : Option Char),
      scanAux s prev 0 t = 0 →
      ∀ i, bMatch s (ctxAt prev t i) (t.drop i) = false := by
  intro t
  induction t with
  | nil =>
    intro prev _ i
    rcases s with _ | ⟨a, s'⟩
    · exact absurd rfl hs
    · simp [bMatch, List.isPrefixOf]
  | cons c rest ih =>
    intro prev h i
    have hb : bMatch s prev (c :: rest) = false := by
      cases hbe : bMatch s prev (c :: rest)
      · rfl
      · simp [scanAux, hbe] at h
    have h' : scanAux s (some c) 0 rest = 0 := by
      simpa [scanAux, hb] using h
    cases i with
    | zero => simpa [ctxAt] using hb
    | succ j =>
      rw [ctxAt_shift, List.drop_succ_cons]
      exact ih (some c) h' j

theorem countOccurrences_pos_iff (s u : List Char) (hs : s ≠ []) :
    0 < countOccurrences s u ↔ ∃ i, occursBAt s u i = true := by
  constructor
  · intro h
    exact scanAux_pos s u none 0 h
  · rintro ⟨i, hi⟩
    by_contra hz
    push_neg at hz
    have h0 : countOccurrences s u = 0 := Nat.le_zero.mp hz
    have := scanAux_zero s hs u none h0 i
    rw [occursBAt] at hi
    rw [this] at hi
    exact Bool.false_ne_true hi

/-- C6: filler detection counts, over the lowercased user-role text only,
whole-token (`\b`-bounded) occurrences of each catalog phrase — a phrase
occurring only inside a longer word has no boundary occurrence and is counted
zero times; the reported total is the sum of the per-phrase counts, the
per-minute rate is the total over the duration in minutes rounded to one
decimal, and the breakdown holds exactly the phrases with a nonzero count. -/
theorem filler_detection (t : Transcript) (d : ℚ)
    (hm : t.messages ≠ []) (hd : 0 < d) :
    (analyze_speech_metrics t d).filler_words.total
        = (FILLER_WORDS.map
            (fun f => countOccurrences f ((userTextOf t).map Char.toLower))).sum
    ∧ (analyze_speech_metrics t d).filler_words.per_minute
        = roundTo1 (((analyze_speech_metrics t d).filler_words.total : ℚ) / (d / 60))
    ∧ (∀ f c, (f, c) ∈ (analyze_speech_metrics t d).filler_words.breakdown
        ↔ f ∈ FILLER_WORDS
            ∧ c = countOccurrences f ((userTextOf t).map Char.toLower) ∧ 0 < c)
    ∧ (∀ s u : List Char, s ≠ [] →
        (0 < countOccurrences s u ↔ ∃ i, occursBAt s u i = true)) := by
  rw [analyze_pos t d hm hd]
  refine ⟨?_, rfl, ?_, fun s u hs => countOccurrences_pos_iff s u hs⟩
  · show fillerTotalOf t = _
    unfold fillerTotalOf _count_fillers
    rw [List.map_map]
    rfl
  · intro f c
    show (f, c) ∈ (_count_fillers (userTextOf t)).filter (fun kv => 0 < kv.2) ↔ _
    simp only [_count_fillers, List.mem_filter, List.mem_map]
    constructor
    · rintro ⟨⟨g, hg, heq⟩, hpos⟩
      cases heq
      exact ⟨hg, rfl, by simpa using hpos⟩
    · rintro ⟨hf, rfl, hpos⟩
      exact ⟨⟨f, hf, rfl⟩, by simpa using hpos⟩

def c6Transcript : Transcript :=
  ⟨[⟨"user", "Um, so like, I basically wanted to, you know, talk about our product.".toList, none⟩,
    ⟨"assistant", "Go ahead.".toList, none⟩]⟩

/-- Witness for C6 at the repository's own filler-word test transcript. -/
theorem filler_detection_witness :
    c6Transcript.messages ≠ [] ∧ (0:ℚ) < 30
      ∧ ((analyze_speech_metrics c6Transcript 30).filler_words.total
            = (FILLER_WORDS.map
                (fun f => countOccurrences f ((userTextOf c6Transcript).map Char.toLower))).sum
          ∧ (analyze_speech_metrics c6Transcript 30).filler_words.per_minute
              = roundTo1
                  (((analyze_speech_metrics c6Transcript 30).filler_words.total : ℚ)
                    / (30 / 60))
          ∧ (∀ f c, (f, c) ∈ (analyze_speech_metrics c6Transcript 30).filler_words.breakdown
              ↔ f ∈ FILLER_WORDS
                  ∧ c = countOccurrences f ((userTextOf c6Transcript).map Char.toLower)
                  ∧ 0 < c)
          ∧ (∀ s u : List Char, s ≠ [] →
              (0 < countOccurrences s u ↔ ∃ i, occursBAt s u i = true))) :=
  ⟨by simp [c6Transcript], by norm_num,
    filler_detection c6Transcript 30 (by simp [c6Transcript]) (by norm_num)⟩

/-! ## C8: per-dimension averages

`specDimAvg` is the spec's formulation: the mean, over exactly the retained
readings that have at least one constituent label present, of the per-reading
means, rounded to 3 decimals; 0 when no reading ever sampled the dimension. -/

def specDimAvg (users : List Reading) (related : List String) : ℚ :=
  let contributing := users.filter (fun r => !(presentScores related r.emotions).isEmpty)
  if contributing = [] then 0
  else roundTo3
    ((contributing.map (fun r =>
        (presentScores related r.emotions).sum
          / ((presentScores related r.emotions).length : ℚ))).sum
      / (contributing.length : ℚ))

theorem dimSamples_eq (users : List Reading) (related : List String) :
    dimSamples users related
      = (users.filter (fun r => !(presentScores related r.emotions).isEmpty)).map
          (fun r => (presentScores related r.emotions).sum
            / ((presentScores related r.emotions).length : ℚ)) := by
  induction users with
  | nil => rfl
  | cons r us ih =>
    cases hp : presentScores related r.emotions with
    | nil =>
      have hr : readingDimAvg related r.emotions = none := by
        rw [readingDimAvg, hp]
      show List.filterMap _ (r :: us) = _
      rw [List.filterMap_cons, hr, List.filter_cons]
      simp only [hp, List.isEmpty_nil, Bool.not_true, Bool.false_eq_true, if_false]
      exact ih
    | cons q qs =>
      have hr : readingDimAvg related r.emotions
          = some ((q :: qs).sum / (((q :: qs).length : ℕ) : ℚ)) := by
        rw [readingDimAvg, hp]
      show List.filterMap _ (r :: us) = _
      rw [List.filterMap_cons, hr, List.filter_cons]
      simp only [hp, List.isEmpty_cons, Bool.not_false, if_true, List.map_cons]
      exact congrArg (List.cons _) ih

theorem avgOrZero_dimSamples (users : List Reading) (related : List String) :
    avgOrZero (dimSamples users related) = specDimAvg users related := by
  rw [dimSamples_eq]
  rcases eq_or_ne
      (users.filter (fun r => !(presentScores related r.emotions).isEmpty)) []
    with hc | hc
  · simp only [specDimAvg]
    rw [hc]
    simp [avgOrZero]
  · simp only [specDimAvg]
    rw [if_neg hc]
    obtain ⟨a, l, he⟩ := List.exists_cons_of_ne_nil hc
    rw [he]
    simp [avgOrZero]

/-- The per-reading per-dimension timeline score, as the spec states it. -/
def specPointScore (related : List String) (emotions : List (String × ℚ)) : ℚ :=
  if presentScores related emotions = [] then 0
  else roundTo3 ((presentScores related emotions).sum
        / ((presentScores related emotions).length : ℚ))

theorem avgOrZero_presentScores (related : List String) (e : List (String × ℚ)) :
    avgOrZero (presentScores related e) = specPointScore related e := by
  cases hp : presentScores related e with
  | nil => simp [avgOrZero, specPointScore, hp]
  | cons q qs => simp [avgOrZero, specPointScore, hp]

/-- The retained user-role readings. -/
def userReadingsOf (data : EmotionData) : List Reading :=
  data.prosody_scores.filter (fun s => s.role == "user")

/-- On telemetry with at least one user-role reading, `summarize_emotions`
reduces to its main branch. -/
theorem summarize_pos (data : EmotionData) (hu : userReadingsOf data ≠ []) :
    summarize_emotions data =
      { dimension_averages := COACHING_EMOTIONS.map (fun d =>
          (d.1, avgOrZero (dimSamples (userReadingsOf data) d.2)))
        dominant_emotions := ((COACHING_EMOTIONS.map (fun d =>
          (d.1, avgOrZero (dimSamples (userReadingsOf data) d.2)))).insertionSort
            domGE).take 3
        timeline := (userReadingsOf data).enum.map (fun ir =>
          { index := ir.1
            timestamp := ir.2.timestamp
            scores := COACHING_EMOTIONS.map (fun d =>
              (d.1, avgOrZero (presentScores d.2 ir.2.emotions))) })
        total_readings := (userReadingsOf data).length } := by
  have hp : data.prosody_scores ≠ [] := by
    intro h
    exact hu (by rw [userReadingsOf, h]; rfl)
  have hpe : data.prosody_scores.isEmpty = false := by
    cases hc : data.prosody_scores with
    | nil => exact absurd hc hp
    | cons a l => rfl
  have hue : (data.prosody_scores.filter (fun s => s.role == "user")).isEmpty
      = false := by
    cases hc : data.prosody_scores.filter (fun s => s.role == "user") with
    | nil => exact absurd hc hu
    | cons a l => rfl
  show (if data.prosody_scores.isEmpty then _ else _) = _
  rw [hpe, if_neg (by simp)]
  show (if (data.prosody_scores.filter (fun s => s.role == "user")).isEmpty
      then _ else _) = _
  rw [hue, if_neg (by simp)]
  rfl

/-- C8: the summariser retains only user-role readings; with none retained (or
empty telemetry) it returns the zero summary (zero averages for all five
dimensions, empty dominant list, empty timeline, zero readings) without error;
otherwise each dimension's overall average is the mean over exactly the
retained readings that sampled that dimension of the per-reading mean of the
present constituent labels (absent labels skipped), 0 when never sampled,
rounded to 3 decimals. -/
theorem emotion_dimension_averages (data : EmotionData) :
    ((data.prosody_scores = [] ∨ userReadingsOf data = []) →
      summarize_emotions data = _empty_summary)
    ∧ (_empty_summary.dominant_emotions = []
        ∧ _empty_summary.timeline = []
        ∧ _empty_summary.total_readings = 0
        ∧ ∀ dim related, (dim, related) ∈ COACHING_EMOTIONS →
            alookup dim _empty_summary.dimension_averages = some 0)
    ∧ (userReadingsOf data ≠ [] →
        ∀ dim related, (dim, related) ∈ COACHING_EMOTIONS →
          alookup dim (summarize_emotions data).dimension_averages
            = some (specDimAvg (userReadingsOf data) related)) := by
  refine ⟨?_, ⟨rfl, rfl, rfl, ?_⟩, ?_⟩
  · intro h
    rcases h with h | h
    · show (if data.prosody_scores.isEmpty then _ else _) = _
      rw [h]
      rfl
    · rw [userReadingsOf] at h
      show (if data.prosody_scores.isEmpty then _ else _) = _
      by_cases hpe : data.prosody_scores.isEmpty = true
      · rw [if_pos hpe]
      · rw [if_neg hpe]
        show (if (data.prosody_scores.filter (fun s => s.role == "user")).isEmpty
            then _ else _) = _
        rw [h]
        rfl
  · intro dim related hmem
    simp only [COACHING_EMOTIONS, List.mem_cons, List.not_mem_nil, or_false,
      Prod.mk.injEq] at hmem
    rcases hmem with ⟨rfl, rfl⟩ | ⟨rfl, rfl⟩ | ⟨rfl, rfl⟩ | ⟨rfl, rfl⟩ | ⟨rfl, rfl⟩ <;>
      rfl
  · intro hu dim related hmem
    rw [summarize_pos data hu]
    simp only [COACHING_EMOTIONS, List.mem_cons, List.not_mem_nil, or_false,
      Prod.mk.injEq] at hmem
    rcases hmem with ⟨rfl, rfl⟩ | ⟨rfl, rfl⟩ | ⟨rfl, rfl⟩ | ⟨rfl, rfl⟩ | ⟨rfl, rfl⟩ <;>
      simp [COACHING_EMOTIONS, alookup, List.find?, avgOrZero_dimSamples]

def c8Data : EmotionData :=
  ⟨[⟨"user", some 1000, [("Determination", 4/5), ("Confidence", 7/10), ("Doubt", 1/10)]⟩,
    ⟨"assistant", some 1500, [("Anger", 1/2)]⟩,
    ⟨"user", some 2000, [("Determination", 9/10)]⟩]⟩

/-- Witness for C8 at concrete telemetry with two user readings. -/
theorem emotion_dimension_averages_witness :
    userReadingsOf c8Data ≠ []
      ∧ alookup "Confidence" (summarize_emotions c8Data).dimension_averages
          = some (specDimAvg (userReadingsOf c8Data) ["Determination", "Confidence", "Conviction"]) :=
  ⟨by simp [c8Data, userReadingsOf],
    (emotion_dimension_averages c8Data).2.2 (by simp [c8Data, userReadingsOf])
      "Confidence" ["Determination", "Confidence", "Conviction"] (by simp [COACHING_EMOTIONS])⟩

/-! ## C9: dominant emotions and the timeline -/

/-- C9: with at least one user-role reading, `dominant_emotions` is the first
3 entries of a stable descending sort of the five dimension averages —
a permutation of the averages, pairwise descending, and preserving the
original (declaration) order within every group of equal scores; the timeline
has exactly one point per retained reading in original order: point `i`
carries index `i`, the `i`-th reading's timestamp, and that reading's
per-dimension scores computed by the per-reading averaging rule (0 when no
constituent label is sampled). -/
theorem dominant_and_timeline (data : EmotionData)
    (hu : userReadingsOf data ≠ []) :
    (∃ sorted : List (String × ℚ),
        sorted.Perm (summarize_emotions data).dimension_averages
        ∧ sorted.Pairwise domGE
        ∧ (∀ q : ℚ, sorted.filter (fun kv => kv.2 == q)
              = (summarize_emotions data).dimension_averages.filter
                  (fun kv => kv.2 == q))
        ∧ (summarize_emotions data).dominant_emotions = sorted.take 3)
    ∧ (summarize_emotions data).total_readings = (userReadingsOf data).length
    ∧ (summarize_emotions data).timeline.length
        = (summarize_emotions data).total_readings
    ∧ (∀ (i : ℕ) (r : Reading), (userReadingsOf data)[i]? = some r →
        (summarize_emotions data).timeline[i]?
          = some { index := i
                   timestamp := r.timestamp
                   scores := COACHING_EMOTIONS.map (fun dl =>
                     (dl.1, specPointScore dl.2 r.emotions)) }) := by
  rw [summarize_pos data hu]
  refine ⟨⟨(COACHING_EMOTIONS.map (fun d =>
      (d.1, avgOrZero (dimSamples (userReadingsOf data) d.2)))).insertionSort domGE,
      List.perm_insertionSort domGE _, List.sorted_insertionSort domGE _,
      ?_, rfl⟩, rfl, ?_, ?_⟩
  · intro q
    set A := COACHING_EMOTIONS.map (fun d =>
      (d.1, avgOrZero (dimSamples (userReadingsOf data) d.2))) with hA
    have hpair : (A.filter (fun kv => kv.2 == q)).Pairwise domGE := by
      apply List.pairwise_of_forall_mem_list
      intro a ha b hb
      have ha2 : a.2 = q := by simpa using (List.mem_filter.mp ha).2
      have hb2 : b.2 = q := by simpa using (List.mem_filter.mp hb).2
      show b.2 ≤ a.2
      rw [ha2, hb2]
    have hsub : List.Sublist (A.filter (fun kv => kv.2 == q))
        (A.insertionSort domGE) :=
      List.sublist_insertionSort hpair (List.filter_sublist A)
    have hsub2 : List.Sublist (A.filter (fun kv => kv.2 == q))
        ((A.insertionSort domGE).filter (fun kv => kv.2 == q)) := by
      have h := hsub.filter (fun kv => kv.2 == q)
      simpa [List.filter_filter] using h
    have hperm : List.Perm
        ((A.insertionSort domGE).filter (fun kv => kv.2 == q))
        (A.filter (fun kv => kv.2 == q)) :=
      (List.perm_insertionSort domGE A).filter _
    exact (hsub2.eq_of_length hperm.length_eq.symm).symm
  · simp
  · intro i r hr
    simp [List.getElem?_map, List.getElem?_enum, hr, avgOrZero_presentScores]

def c9Data : EmotionData :=
  ⟨[⟨"user", some 1000, [("Excitement", 3/5), ("Doubt", 1/5)]⟩,
    ⟨"user", some 2000, [("Joy", 1/2)]⟩]⟩

/-- Witness for C9 at concrete telemetry. -/
theorem dominant_and_timeline_witness :
    userReadingsOf c9Data ≠ []
      ∧ (summarize_emotions c9Data).total_readings = (userReadingsOf c9Data).length
      ∧ (summarize_emotions c9Data).timeline.length
          = (summarize_emotions c9Data).total_readings
      ∧ (∃ sorted : List (String × ℚ),
          sorted.Perm (summarize_emotions c9Data).dimension_averages
          ∧ sorted.Pairwise domGE
          ∧ (∀ q : ℚ, sorted.filter (fun kv => kv.2 == q)
                = (summarize_emotions c9Data).dimension_averages.filter
                    (fun kv => kv.2 == q))
          ∧ (summarize_emotions c9Data).dominant_emotions = sorted.take 3) := by
  have h := dominant_and_timeline c9Data (by simp [c9Data, userReadingsOf])
  exact ⟨by simp [c9Data, userReadingsOf], h.2.1, h.2.2.1, h.1⟩

end SalesCoach
